import Mathlib

/-!
Verification of the ReflectAI backend (FastAPI + Celery) against its
specification.  The Python sources under `backend/` are shallowly embedded:
SQLAlchemy rows become structures, database tables become lists of rows,
endpoint and task bodies become pure functions on those lists, and the
external numeric collaborators (the sentence-transformer embedding model and
the UMAP projector) are passed in as explicit function parameters, since the
spec treats them as black boxes and their floating-point behaviour is not
modelled exactly.  Machine floats are represented by exact rationals `ℚ`;
timestamps by integers; text by lists of characters.
-/

namespace ReflectAI

/-- Text content (Python `str`), modelled as a list of characters. -/
abbrev Text := List Char

/-- An embedding vector (`pgvector` column / numpy array), with rational
components standing for floats. -/
abbrev Emb := List ℚ

/-- Row of `journal_entries` (models.py `JournalEntry`).  `user_id` is a
nullable column, `embedding` is a nullable vector column. -/
structure JournalEntry where
  id : ℤ
  user_id : Option ℤ
  title : Option Text
  content : Text
  created_at : ℤ
  edited_at : Option ℤ
  emotion : Option String
  emotion_score : Option ℚ
  embedding : Option Emb
deriving DecidableEq

/-- Response item of schemas.py `SimilarEntry`.  The search endpoints build it
without a `title` argument, so the pydantic default `None` applies. -/
structure SimilarEntry where
  id : ℤ
  title : Option Text
  content : Text
  similarity_score : ℚ
  created_at : ℤ
  emotion : Option String
deriving DecidableEq

/-- Response of `/search/semantic` (schemas.py `TextSearchResponse`). -/
structure TextSearchResponse where
  query : Text
  results : List SimilarEntry
deriving DecidableEq

/-- Python list slicing `l[:k]` for an `int` bound `k`: a nonnegative bound
takes the first `k` elements; a negative bound keeps all but the last `-k`
elements (clamped at the empty list). -/
def pySliceTo (k : ℤ) (l : List α) : List α :=
  if 0 ≤ k then l.take k.toNat else l.take (l.length - (-k).toNat)

/-- The candidate pool of main.py `semantic_search`: the user's entries that
have a stored embedding, in database fetch order (entries lacking an
embedding are filtered out by the query, never reaching the scoring loop). -/
def searchCandidates (db : List JournalEntry) (uid : ℤ) : List JournalEntry :=
  db.filter fun e => decide (e.user_id = some uid ∧ e.embedding ≠ none)

/-- The stored embedding of an entry as used inside the scoring loops, where
every candidate has one (main.py converts it to a plain list). -/
def entryEmb (e : JournalEntry) : Emb := e.embedding.getD []

/-- Comparator of `similarities.sort(key=lambda x: x[1], reverse=True)`:
a stable sort putting higher scores first.  Python's sort is stable and
`reverse=True` keeps equal-key elements in their original relative order,
which is exactly a stable sort under this non-strict comparator. -/
def simLe (x y : JournalEntry × ℚ) : Bool := decide (y.2 ≤ x.2)

/-- Conversion of a scored entry to a response row (the `SimilarEntry(...)`
construction in main.py `semantic_search`; no `title` is passed). -/
def toSimilarEntry (p : JournalEntry × ℚ) : SimilarEntry :=
  { id := p.1.id, title := none, content := p.1.content,
    similarity_score := p.2, created_at := p.1.created_at,
    emotion := p.1.emotion }

/-- main.py `semantic_search` (`POST /search/semantic`).  `sim` is the numeric
kernel `compute_cosine_similarity` (a floating-point computation on numpy
arrays, treated as an opaque collaborator), and `qe` is the query embedding
returned by `model.encode(request.query, ...)`.  The body filters the user's
entries to those with an embedding, scores each against the query, sorts by
score descending with Python's stable sort, and truncates to `top_k` with a
Python slice. -/
def semantic_search (sim : Emb → Emb → ℚ) (db : List JournalEntry)
    (uid : ℤ) (query : Text) (qe : Emb) (top_k : ℤ) : TextSearchResponse :=
  let entries := searchCandidates db uid
  if entries = [] then { query := query, results := [] }
  else
    let similarities := entries.map fun e => (e, sim qe (entryEmb e))
    let sorted := similarities.mergeSort simLe
    let top_results := pySliceTo top_k sorted
    { query := query, results := top_results.map toSimilarEntry }

theorem simLe_trans (a b c : JournalEntry × ℚ) (h1 : simLe a b = true)
    (h2 : simLe b c = true) : simLe a c = true := by
  simp only [simLe, decide_eq_true_eq] at *
  exact le_trans h2 h1

theorem simLe_total (a b : JournalEntry × ℚ) :
    (simLe a b || simLe b a) = true := by
  simp only [simLe, Bool.or_eq_true, decide_eq_true_eq]
  exact le_total b.2 a.2

theorem pySliceTo_eq_take (k : ℤ) (l : List α) :
    pySliceTo k l = l.take (if 0 ≤ k then k.toNat else l.length - (-k).toNat) := by
  unfold pySliceTo
  split <;> rfl

theorem pySliceTo_sublist (k : ℤ) (l : List α) : (pySliceTo k l).Sublist l := by
  rw [pySliceTo_eq_take]
  exact List.take_sublist _ _

theorem length_pySliceTo_le (k : ℤ) (l : List α) (hk : 0 ≤ k) :
    ((pySliceTo k l).length : ℤ) ≤ k := by
  rw [pySliceTo_eq_take, if_pos hk]
  calc ((l.take k.toNat).length : ℤ) ≤ (k.toNat : ℤ) := by
        exact_mod_cast Nat.le_of_lt_succ (Nat.lt_succ_of_le (List.length_take_le _ _))
    _ = k := Int.toNat_of_nonneg hk

/-- C1, amended: for every corpus and every nonnegative `top_k`, semantic
search returns at most `top_k` results, sorted in non-increasing order of the
similarity score computed between the query embedding and the candidate's
stored embedding, and every returned row comes from an entry of the corpus
that has a stored embedding (entries without one are excluded from the
candidate pool, never an error). -/
theorem semantic_search_topk_sorted_embedded (sim : Emb → Emb → ℚ)
    (db : List JournalEntry) (uid : ℤ) (query : Text) (qe : Emb) (top_k : ℤ)
    (hk : 0 ≤ top_k) :
    ((semantic_search sim db uid query qe top_k).results.length : ℤ) ≤ top_k ∧
    (semantic_search sim db uid query qe top_k).results.Pairwise
      (fun a b => b.similarity_score ≤ a.similarity_score) ∧
    ∀ r ∈ (semantic_search sim db uid query qe top_k).results,
      ∃ e ∈ db, e.user_id = some uid ∧ e.embedding ≠ none ∧
        r.id = e.id ∧ r.similarity_score = sim qe (entryEmb e) := by
  by_cases h : searchCandidates db uid = []
  · refine ⟨?_, ?_, ?_⟩ <;> simp [semantic_search, h]
    exact hk
  · have hres : (semantic_search sim db uid query qe top_k).results =
        (pySliceTo top_k
          (((searchCandidates db uid).map fun e => (e, sim qe (entryEmb e))).mergeSort
            simLe)).map toSimilarEntry := by
      simp [semantic_search, h]
    refine ⟨?_, ?_, ?_⟩
    · rw [hres, List.length_map]
      exact length_pySliceTo_le _ _ hk
    · rw [hres]
      have hsorted :
          (((searchCandidates db uid).map fun e => (e, sim qe (entryEmb e))).mergeSort
            simLe).Pairwise (fun a b => simLe a b = true) :=
        List.sorted_mergeSort simLe_trans simLe_total _
      have hslice := hsorted.sublist (pySliceTo_sublist top_k _)
      rw [List.pairwise_map]
      refine hslice.imp ?_
      intro a b hab
      simpa [simLe, toSimilarEntry] using hab
    · rw [hres]
      intro r hr
      obtain ⟨p, hp, hpr⟩ := List.mem_map.mp hr
      have hpsorted := (pySliceTo_sublist top_k _).subset hp
      have hpsim := (List.mergeSort_perm _ simLe).subset hpsorted
      obtain ⟨e, he, hep⟩ := List.mem_map.mp hpsim
      have hedb := List.mem_filter.mp he
      have hcond := of_decide_eq_true hedb.2
      refine ⟨e, hedb.1, hcond.1, hcond.2, ?_, ?_⟩
      · rw [← hpr, ← hep]; rfl
      · rw [← hpr, ← hep]; rfl

/-- Similarity kernel used for concrete inputs: a constant score (the
pipeline properties under scrutiny do not depend on the numeric values). -/
def cexSim : Emb → Emb → ℚ := fun _ _ => 0

/-- Concrete journal entry with a stored embedding. -/
def cexEntryA : JournalEntry :=
  { id := 1, user_id := some 1, title := none, content := [], created_at := 0,
    edited_at := none, emotion := none, emotion_score := none,
    embedding := some [1] }

/-- Second concrete journal entry with a stored embedding. -/
def cexEntryB : JournalEntry := { cexEntryA with id := 2 }

/-- C1 counterexample: the claim quantifies over every `top_k`, but `top_k`
is an unvalidated Python `int`, and for a negative value the slice
`similarities[:top_k]` keeps all but the last `-top_k` results.  With a
two-entry corpus and `top_k = -1`, one result is returned, and `1 ≤ -1`
fails, refuting the claimed length bound as stated. -/
theorem semantic_search_negative_topk_cex :
    ¬ (((semantic_search cexSim [cexEntryA, cexEntryB] 1 [] [] (-1)).results.length : ℤ) ≤ -1) := by
  have h1 : (semantic_search cexSim [cexEntryA, cexEntryB] 1 [] [] (-1)).results.length = 1 := by
    simp [semantic_search, searchCandidates, cexEntryA, cexEntryB, cexSim,
      List.mergeSort, pySliceTo, simLe, toSimilarEntry]
  rw [h1]
  decide

/-- Witness for the amended C1 theorem at a concrete corpus and `top_k = 3`. -/
theorem semantic_search_topk_witness :
    (0 : ℤ) ≤ 3 ∧
    ((semantic_search cexSim [cexEntryA, cexEntryB] 1 [] [] 3).results.length : ℤ) ≤ 3 :=
  ⟨by decide,
    (semantic_search_topk_sorted_embedded cexSim [cexEntryA, cexEntryB] 1 [] [] 3 (by decide)).1⟩

theorem pair_sublist_take {β γ : Type _} (f : β → γ) :
    ∀ (s : List β) (k : ℕ) (a b : β), (s.map f).Nodup →
      [a, b].Sublist s → b ∈ s.take k → [a, b].Sublist (s.take k) := by
  intro s
  induction s with
  | nil => intro k a b _ hsub _; simp at hsub
  | cons x s ih =>
    intro k a b hnd hsub hb
    match k with
    | 0 => simp at hb
    | Nat.succ k =>
      rw [List.take_succ_cons] at hb ⊢
      rw [List.map_cons, List.nodup_cons] at hnd
      cases hsub with
      | cons _ h =>
        have hbs : b ∈ s := h.subset (by simp)
        have hbx : b ≠ x := by
          intro he
          exact hnd.1 (he ▸ List.mem_map_of_mem f hbs)
        have hb' : b ∈ s.take k := by
          rcases List.mem_cons.mp hb with h1 | h1
          · exact absurd h1 hbx
          · exact h1
        exact (ih k a b hnd.2 h hb').cons x
      | cons₂ _ h =>
        have hbs : b ∈ s := h.subset (by simp)
        have hbx : b ≠ x := by
          intro he
          exact hnd.1 (he ▸ List.mem_map_of_mem f hbs)
        have hb' : b ∈ s.take k := by
          rcases List.mem_cons.mp hb with h1 | h1
          · exact absurd h1 hbx
          · exact h1
        exact (List.singleton_sublist.mpr hb').cons₂ x

/-- C9: the descending sort of the scoring loop is stable, so when two
candidate entries receive exactly equal similarity scores, their relative
order among the returned results equals their relative order in the candidate
pool as fetched.  `hnd` is the database invariant that the fetched rows carry
distinct primary keys. -/
theorem semantic_search_tie_stable (sim : Emb → Emb → ℚ)
    (db : List JournalEntry) (uid : ℤ) (query : Text) (qe : Emb) (top_k : ℤ)
    (a b : JournalEntry)
    (hnd : ((searchCandidates db uid).map JournalEntry.id).Nodup)
    (hpair : [a, b].Sublist (searchCandidates db uid))
    (htie : sim qe (entryEmb a) = sim qe (entryEmb b))
    (hmem : toSimilarEntry (b, sim qe (entryEmb b)) ∈
      (semantic_search sim db uid query qe top_k).results) :
    [toSimilarEntry (a, sim qe (entryEmb a)),
      toSimilarEntry (b, sim qe (entryEmb b))].Sublist
      (semantic_search sim db uid query qe top_k).results := by
  have hbpool : b ∈ searchCandidates db uid := hpair.subset (by simp)
  have h : searchCandidates db uid ≠ [] := List.ne_nil_of_mem hbpool
  have hres : (semantic_search sim db uid query qe top_k).results =
      (pySliceTo top_k
        (((searchCandidates db uid).map fun e => (e, sim qe (entryEmb e))).mergeSort
          simLe)).map toSimilarEntry := by
    simp [semantic_search, h]
  set g : JournalEntry → JournalEntry × ℚ := fun e => (e, sim qe (entryEmb e)) with hg
  set s := ((searchCandidates db uid).map g).mergeSort simLe with hs
  have hpair2 : [g a, g b].Sublist ((searchCandidates db uid).map g) := by
    simpa using hpair.map g
  have hpw : [g a, g b].Pairwise (fun x y => simLe x y = true) := by
    refine List.pairwise_cons.mpr ⟨?_, List.pairwise_singleton _ _⟩
    intro y hy
    rw [List.mem_singleton] at hy
    subst hy
    simp only [simLe, hg, decide_eq_true_eq]
    exact le_of_eq htie.symm
  have hstable : [g a, g b].Sublist s :=
    List.sublist_mergeSort simLe_trans simLe_total hpw hpair2
  have hkeys : (s.map fun p => p.1.id).Nodup := by
    have hperm : (s.map fun p : JournalEntry × ℚ => p.1.id).Perm
        (((searchCandidates db uid).map g).map fun p => p.1.id) :=
      (List.mergeSort_perm _ simLe).map _
    refine hperm.nodup_iff.mpr ?_
    rw [List.map_map]
    exact hnd
  obtain ⟨p, hp, hpb⟩ := List.mem_map.mp (hres ▸ hmem)
  have hpin : p ∈ s := (pySliceTo_sublist top_k s).subset hp
  have hgbin : g b ∈ s := hstable.subset (by simp)
  have hpgb : p = g b := by
    have hid : p.1.id = (g b).1.id := by
      have := congrArg SimilarEntry.id hpb
      simpa [toSimilarEntry, hg] using this
    exact List.inj_on_of_nodup_map hkeys hpin hgbin hid
  subst hpgb
  rw [hres]
  have hfinal := (pair_sublist_take (fun p : JournalEntry × ℚ => p.1.id) s
      (if 0 ≤ top_k then top_k.toNat else s.length - (-top_k).toNat) (g a) (g b)
      hkeys hstable (by rwa [pySliceTo_eq_take] at hp)).map toSimilarEntry
  rw [pySliceTo_eq_take]
  simpa [hg] using hfinal

/-- Witness for the C9 stability theorem at a concrete two-entry corpus with
tied scores. -/
theorem semantic_search_tie_stable_witness :
    [toSimilarEntry (cexEntryA, cexSim [] (entryEmb cexEntryA)),
      toSimilarEntry (cexEntryB, cexSim [] (entryEmb cexEntryB))].Sublist
      (semantic_search cexSim [cexEntryA, cexEntryB] 1 [] [] 5).results := by
  have hsc : searchCandidates [cexEntryA, cexEntryB] 1 = [cexEntryA, cexEntryB] := by
    decide
  refine semantic_search_tie_stable cexSim [cexEntryA, cexEntryB] 1 [] [] 5
    cexEntryA cexEntryB ?_ ?_ rfl ?_
  · decide
  · rw [hsc]
  · simp [semantic_search, hsc, cexSim, List.mergeSort, simLe, pySliceTo, entryEmb]

/-- The sentence-transformer collaborator of the workers (`get_embedding_model`
in tasks.py).  `encode` embeds one text and `encodeBatch` a list of texts; the
Boolean argument is the `normalize_embeddings` flag, and a `none` result
models a raised exception.  `tokenize` is `model.tokenizer.encode`. -/
structure EmbedModel where
  encode : Text → Bool → Option Emb
  encodeBatch : List Text → Bool → Option (List Emb)
  tokenize : Text → List ℕ

/-- Maximum character length supported per embedding call
(generate_embeddings.py `generate_embedding`, default `max_length = 8192`). -/
def EMBED_MAX_LENGTH : ℕ := 8192

/-- Sum of squared components; a vector has unit Euclidean length iff this
equals 1. -/
def sumSq (v : Emb) : ℚ := (v.map fun x => x * x).sum

/-- Result payload of tasks.py `vectorize_entry`: the success dict carries
`entry_id`, `token_count`, `embedding_dimension` and a message, the failure
dict carries `entry_id` and a message. -/
inductive VectorizeResult where
  | success (entry_id : ℤ) (token_count : ℕ) (embedding_dimension : ℕ)
      (message : String)
  | error (entry_id : ℤ) (message : String)
deriving DecidableEq

/-- The `status` field of the single-entry payload dict. -/
def VectorizeResult.status : VectorizeResult → String
  | .success _ _ _ _ => "success"
  | .error _ _ => "error"

/-- Observable outcome of one `vectorize_entry` job: the returned payload,
the database after the job, and the text passed to `model.encode` when that
call was reached. -/
structure VectorizeOutcome where
  result : VectorizeResult
  db : List JournalEntry
  sent : Option Text
deriving DecidableEq

/-- tasks.py `vectorize_entry`: fetch the entry by id (error payload when
missing), call `model.encode(entry.content, normalize_embeddings=True)` on
the full content, count tokens, store the returned vector, commit, and then
refresh the ORM object from the database (`db.refresh(entry)`).  `commitOk`
models whether `db.commit()` succeeds and `refreshOk` whether the subsequent
refresh succeeds; any raised exception is caught, `db.rollback()` is called
and an error payload is returned.  A rollback undoes nothing once the commit
has gone through, so a failing refresh yields an error payload while the new
embedding stays committed.  Rows are keyed by the primary key `id`. -/
def vectorize_entry (m : EmbedModel) (commitOk refreshOk : Bool)
    (db : List JournalEntry) (entry_id : ℤ) : VectorizeOutcome :=
  match db.find? fun e => decide (e.id = entry_id) with
  | none => { result := .error entry_id "Entry not found", db := db, sent := none }
  | some entry =>
    match m.encode entry.content true with
    | none =>
      { result := .error entry_id "Error vectorizing entry", db := db,
        sent := some entry.content }
    | some embedding =>
      let token_count := (m.tokenize entry.content).length
      if commitOk then
        let committed := db.map fun e =>
          if e.id = entry_id then { e with embedding := some embedding } else e
        if refreshOk then
          { result := .success entry.id token_count embedding.length
              "Successfully generated embedding",
            db := committed, sent := some entry.content }
        else
          { result := .error entry_id "Error vectorizing entry", db := committed,
            sent := some entry.content }
      else
        { result := .error entry_id "Error vectorizing entry", db := db,
          sent := some entry.content }

/-- Embedding collaborator that reports the length of the text it receives,
used to observe what the worker sends. -/
def lenModel : EmbedModel :=
  { encode := fun t _ => some [(t.length : ℚ)],
    encodeBatch := fun ts _ => some (ts.map fun t => [(t.length : ℚ)]),
    tokenize := fun _ => [] }

/-- A text one character longer than the embedding service's maximum
supported length. -/
def longText : Text := List.replicate (EMBED_MAX_LENGTH + 1) 'a'

/-- Journal entry whose content exceeds the maximum supported length. -/
def longEntry : JournalEntry :=
  { id := 1, user_id := some 1, title := none, content := longText,
    created_at := 0, edited_at := none, emotion := none, emotion_score := none,
    embedding := none }

/-- C3 counterexample: the single-entry worker passes `entry.content` to the
embedding model without truncating it, so for an entry whose content exceeds
the maximum supported length the text actually sent is not the truncated
text the claim describes (truncation exists only in the separate
generate_embeddings.py script, which the queue worker does not use). -/
theorem vectorize_entry_truncation_cex :
    ¬ (∀ s, (vectorize_entry lenModel true true [longEntry] 1).sent = some s →
        s = longEntry.content.take EMBED_MAX_LENGTH) := by
  intro hcl
  have hsent : (vectorize_entry lenModel true true [longEntry] 1).sent = some longText := by
    rfl
  have hlen := congrArg List.length (hcl longText hsent)
  simp only [longText, longEntry, EMBED_MAX_LENGTH, List.length_take,
    List.length_replicate] at hlen
  omega

/-- C3, amended: the single-entry job passes the entry's content to the
embedding service untruncated while requesting service-side normalization
(`normalize_embeddings=True`); under the collaborator contract that the
service returns unit vectors when asked to normalize, the vector stored on a
successful run has unit length. -/
theorem vectorize_entry_full_text_unit_norm (m : EmbedModel)
    (commitOk refreshOk : Bool) (db : List JournalEntry) (eid : ℤ)
    (hm : ∀ t v, m.encode t true = some v → sumSq v = 1) :
    (∀ s, (vectorize_entry m commitOk refreshOk db eid).sent = some s →
      ∃ e, db.find? (fun x => decide (x.id = eid)) = some e ∧ s = e.content) ∧
    ((vectorize_entry m commitOk refreshOk db eid).result.status = "success" →
      ∃ e v, db.find? (fun x => decide (x.id = eid)) = some e ∧
        m.encode e.content true = some v ∧ sumSq v = 1 ∧
        (vectorize_entry m commitOk refreshOk db eid).db =
          db.map fun x => if x.id = eid then { x with embedding := some v } else x) := by
  cases hf : db.find? fun x => decide (x.id = eid) with
  | none =>
    refine ⟨?_, ?_⟩
    · intro s hs
      simp [vectorize_entry, hf] at hs
    · intro hst
      simp [vectorize_entry, hf, VectorizeResult.status] at hst
  | some entry =>
    cases he : m.encode entry.content true with
    | none =>
      refine ⟨?_, ?_⟩
      · intro s hs
        simp [vectorize_entry, hf, he] at hs
        exact ⟨entry, rfl, hs.symm⟩
      · intro hst
        simp [vectorize_entry, hf, he, VectorizeResult.status] at hst
    | some v =>
      cases commitOk with
      | true =>
        cases refreshOk with
        | true =>
          refine ⟨?_, ?_⟩
          · intro s hs
            simp [vectorize_entry, hf, he] at hs
            exact ⟨entry, rfl, hs.symm⟩
          · intro _
            exact ⟨entry, v, rfl, he, hm entry.content v he, by
              simp [vectorize_entry, hf, he]⟩
        | false =>
          refine ⟨?_, ?_⟩
          · intro s hs
            simp [vectorize_entry, hf, he] at hs
            exact ⟨entry, rfl, hs.symm⟩
          · intro hst
            simp [vectorize_entry, hf, he, VectorizeResult.status] at hst
      | false =>
        refine ⟨?_, ?_⟩
        · intro s hs
          simp [vectorize_entry, hf, he] at hs
          exact ⟨entry, rfl, hs.symm⟩
        · intro hst
          simp [vectorize_entry, hf, he, VectorizeResult.status] at hst

/-- Embedding collaborator that always returns the unit vector `[1]`. -/
def unitModel : EmbedModel :=
  { encode := fun _ _ => some [1],
    encodeBatch := fun ts _ => some (ts.map fun _ => [1]),
    tokenize := fun _ => [] }

/-- Witness for the amended C3 theorem at a concrete entry and a collaborator
honoring the normalization flag: the text sent is the fetched entry's own
content. -/
theorem vectorize_entry_full_text_unit_norm_witness :
    ∃ e, [longEntry].find? (fun x => decide (x.id = 1)) = some e ∧
      longText = e.content :=
  (vectorize_entry_full_text_unit_norm unitModel true true [longEntry] 1 (by
    intro t v h
    obtain rfl : v = [1] := by simpa [unitModel] using h.symm
    simp [sumSq])).1 longText rfl

/-- Concrete entry lacking an embedding. -/
def rawEntryA : JournalEntry := { cexEntryA with embedding := none }

/-- Second concrete entry lacking an embedding. -/
def rawEntryB : JournalEntry := { cexEntryB with embedding := none }

/-- C8 counterexample: tasks.py follows `db.commit()` with
`db.refresh(entry)`; when the refresh raises after the commit has succeeded,
the shared handler returns a status-"error" payload, yet the entry's new
embedding is already durably committed and `db.rollback()` undoes nothing —
the stored state is not unchanged on this failure, refuting the claim as
stated. -/
theorem vectorize_entry_refresh_cex :
    (vectorize_entry unitModel true false [rawEntryA] 1).result.status = "error" ∧
    (vectorize_entry unitModel true false [rawEntryA] 1).db ≠ [rawEntryA] := by
  refine ⟨rfl, ?_⟩
  decide

/-- C8, amended: every failure cause of the single-entry job — entry not
found, embedding-service error, commit error, or post-commit refresh error —
makes the job return a payload with status "error" (the handler catches the
exception, so nothing escapes to the queue).  A failure arising before the
commit (entry not found, service error, commit error) is rolled back,
leaving the stored state unchanged; a refresh failure arising after a
successful commit also returns an error payload, but the entry's new
embedding remains committed. -/
theorem vectorize_entry_error_handling (m : EmbedModel)
    (commitOk refreshOk : Bool) (db : List JournalEntry) (eid : ℤ) :
    ((vectorize_entry m commitOk refreshOk db eid).result.status = "error" ↔
      (db.find? (fun x => decide (x.id = eid)) = none ∨
       (∃ e, db.find? (fun x => decide (x.id = eid)) = some e ∧
          m.encode e.content true = none) ∨
       commitOk = false ∨ refreshOk = false)) ∧
    ((db.find? (fun x => decide (x.id = eid)) = none ∨
      (∃ e, db.find? (fun x => decide (x.id = eid)) = some e ∧
        m.encode e.content true = none) ∨
      commitOk = false) →
      (vectorize_entry m commitOk refreshOk db eid).db = db) ∧
    (∀ e v, db.find? (fun x => decide (x.id = eid)) = some e →
      m.encode e.content true = some v → commitOk = true →
      (vectorize_entry m commitOk refreshOk db eid).db =
        (db.map fun x => if x.id = eid then { x with embedding := some v } else x) ∧
      ((vectorize_entry m commitOk refreshOk db eid).result.status = "error" ↔
        refreshOk = false)) := by
  cases hf : db.find? fun x => decide (x.id = eid) with
  | none =>
    refine ⟨⟨fun _ => Or.inl rfl, fun _ => ?_⟩, fun _ => ?_, fun e v heq => ?_⟩
    · simp [vectorize_entry, hf, VectorizeResult.status]
    · simp [vectorize_entry, hf]
    · exact Option.noConfusion heq
  | some entry =>
    cases he : m.encode entry.content true with
    | none =>
      refine ⟨⟨fun _ => Or.inr (Or.inl ⟨entry, rfl, he⟩), fun _ => ?_⟩,
        fun _ => ?_, fun e v heq henc => ?_⟩
      · simp [vectorize_entry, hf, he, VectorizeResult.status]
      · simp [vectorize_entry, hf, he]
      · obtain rfl : entry = e := Option.some_inj.mp heq
        rw [he] at henc
        exact Option.noConfusion henc
    | some v0 =>
      cases commitOk with
      | false =>
        refine ⟨⟨fun _ => Or.inr (Or.inr (Or.inl rfl)), fun _ => ?_⟩,
          fun _ => ?_, fun e v heq henc hco => ?_⟩
        · simp [vectorize_entry, hf, he, VectorizeResult.status]
        · simp [vectorize_entry, hf, he]
        · exact absurd hco (by decide)
      | true =>
        have hpre : ¬ (some entry = none ∨
            (∃ e, some entry = some e ∧ m.encode e.content true = none) ∨
            true = false) := by
          rintro (h1 | ⟨e, he1, he2⟩ | h3)
          · exact Option.noConfusion h1
          · obtain rfl : entry = e := Option.some_inj.mp he1
            rw [he] at he2
            exact Option.noConfusion he2
          · exact absurd h3 (by decide)
        cases refreshOk with
        | false =>
          refine ⟨⟨fun _ => Or.inr (Or.inr (Or.inr rfl)), fun _ => ?_⟩,
            fun hp => absurd hp hpre, fun e v heq henc _ => ?_⟩
          · simp [vectorize_entry, hf, he, VectorizeResult.status]
          · obtain rfl : entry = e := Option.some_inj.mp heq
            obtain rfl : v0 = v := by
              rw [he] at henc
              exact Option.some_inj.mp henc
            refine ⟨?_, ?_⟩
            · simp [vectorize_entry, hf, he]
            · simp [vectorize_entry, hf, he, VectorizeResult.status]
        | true =>
          have hstat :
              (vectorize_entry m true true db eid).result.status = "success" := by
            simp [vectorize_entry, hf, he, VectorizeResult.status]
          refine ⟨?_, fun hp => absurd hp hpre, fun e v heq henc _ => ?_⟩
          · rw [hstat]
            refine ⟨fun hc => absurd hc (by decide), fun hrhs => ?_⟩
            rcases hrhs with h1 | ⟨e, he1, he2⟩ | h3 | h4
            · exact Option.noConfusion h1
            · obtain rfl : entry = e := Option.some_inj.mp he1
              rw [he] at he2
              exact Option.noConfusion he2
            · exact absurd h3 (by decide)
            · exact absurd h4 (by decide)
          · obtain rfl : entry = e := Option.some_inj.mp heq
            obtain rfl : v0 = v := by
              rw [he] at henc
              exact Option.some_inj.mp henc
            refine ⟨?_, ?_⟩
            · simp [vectorize_entry, hf, he]
            · rw [hstat]
              exact ⟨fun hc => absurd hc (by decide), fun hr => absurd hr (by decide)⟩

/-- Witness for the amended C8 theorem at a concrete empty database (the
entry-not-found failure): the stored state is unchanged. -/
theorem vectorize_entry_error_handling_witness :
    (vectorize_entry unitModel true true [] 5).db = [] :=
  (vectorize_entry_error_handling unitModel true true [] 5).2.1 (Or.inl rfl)

/-- Result item of the batch loop in tasks.py `vectorize_all_entries`. -/
structure BatchItemResult where
  entry_id : ℤ
  token_count : ℕ
  embedding_dimension : ℕ
  status : String
deriving DecidableEq

/-- Result payload of tasks.py `vectorize_all_entries`: the success dict
carries `user_id`, `total_entries`, `processed_count` and the per-entry
result list; the failure dict carries `user_id` and a message. -/
inductive VectorizeAllResult where
  | success (user_id : ℤ) (total_entries processed_count : ℕ)
      (results : List BatchItemResult)
  | error (user_id : ℤ) (message : String)
deriving DecidableEq

/-- The `status` field of the batch payload dict. -/
def VectorizeAllResult.status : VectorizeAllResult → String
  | .success _ _ _ _ => "success"
  | .error _ _ => "error"

/-- Observable outcome of one `vectorize_all_entries` job: the returned
payload, the database after the job, and the argument lists passed to the
batched `model.encode` call. -/
structure VectorizeAllOutcome where
  result : VectorizeAllResult
  db : List JournalEntry
  batchCalls : List (List Text)
deriving DecidableEq

/-- The batch of tasks.py `vectorize_all_entries`: the user's entries that
have no embedding yet, in fetch order. -/
def batchEntries (db : List JournalEntry) (uid : ℤ) : List JournalEntry :=
  db.filter fun e => decide (e.user_id = some uid ∧ e.embedding = none)

/-- The per-row effect of the batch commit in `vectorize_all_entries`: a row
whose id appears in the assignment list receives its new embedding, other
rows are untouched. -/
def applyEmbeddings (assoc : List (ℤ × Emb)) (e : JournalEntry) : JournalEntry :=
  match assoc.lookup e.id with
  | some v => { e with embedding := some v }
  | none => e

/-- tasks.py `vectorize_all_entries`: fetch the user's entries lacking an
embedding; if none, return an empty success payload.  Otherwise embed all
contents in one batched `model.encode` call, assign vector i back to entry i
(the `zip` over entries and returned vectors), and flush every update with a
single `db.commit()`.  Any raised exception (a failing batched encode, or a
failing commit modelled by `commitOk`) is caught, the session rolled back and
an error payload returned.  Rows are keyed by the primary key `id`. -/
def vectorize_all_entries (m : EmbedModel) (commitOk : Bool)
    (db : List JournalEntry) (user_id : ℤ) : VectorizeAllOutcome :=
  let entries := batchEntries db user_id
  if entries = [] then
    { result := .success user_id 0 0 [], db := db, batchCalls := [] }
  else
    let contents := entries.map fun e => e.content
    match m.encodeBatch contents true with
    | none =>
      { result := .error user_id "Error vectorizing entries", db := db,
        batchCalls := [contents] }
    | some embeddings =>
      let pairs := entries.zip embeddings
      let results : List BatchItemResult := pairs.map fun p =>
        { entry_id := p.1.id, token_count := (m.tokenize p.1.content).length,
          embedding_dimension := p.2.length, status := "success" }
      if commitOk then
        { result := .success user_id entries.length results.length results,
          db := db.map (applyEmbeddings (pairs.map fun p => (p.1.id, p.2))),
          batchCalls := [contents] }
      else
        { result := .error user_id "Error vectorizing entries", db := db,
          batchCalls := [contents] }

theorem lookup_isSome_of_mem_keys {β : Type _} :
    ∀ (l : List (ℤ × β)) (k : ℤ), k ∈ l.map Prod.fst → (l.lookup k).isSome = true := by
  intro l
  induction l with
  | nil => intro k h; simp at h
  | cons p t ih =>
    intro k h
    obtain ⟨k1, v1⟩ := p
    by_cases hk : k = k1
    · subst hk
      simp [List.lookup_cons]
    · rw [List.lookup_cons]
      have hbeq : (k == k1) = false := by simpa using hk
      rw [hbeq]
      rw [List.map_cons] at h
      rcases List.mem_cons.mp h with h1 | h1
      · exact absurd h1 hk
      · exact ih k h1

theorem lookup_of_mem_nodup_keys {β : Type _} :
    ∀ (l : List (ℤ × β)), (l.map Prod.fst).Nodup → ∀ k v, (k, v) ∈ l →
      l.lookup k = some v := by
  intro l
  induction l with
  | nil => intro _ k v h; simp at h
  | cons p t ih =>
    intro hnd k v h
    obtain ⟨k1, v1⟩ := p
    rw [List.map_cons, List.nodup_cons] at hnd
    rcases List.mem_cons.mp h with h1 | h1
    · obtain ⟨rfl, rfl⟩ := Prod.mk.injEq .. ▸ h1
      simp [List.lookup_cons]
    · have hk : k ∈ t.map Prod.fst := by
        simpa using List.mem_map_of_mem Prod.fst h1
      have hkne : k ≠ k1 := fun he => hnd.1 (he ▸ hk)
      rw [List.lookup_cons]
      have hbeq : (k == k1) = false := by simpa using hkne
      rw [hbeq]
      exact ih hnd.2 k v h1

theorem find?_mem_nodup :
    ∀ (db : List JournalEntry), (db.map JournalEntry.id).Nodup →
      ∀ e ∈ db, db.find? (fun x => decide (x.id = e.id)) = some e := by
  intro db
  induction db with
  | nil => intro _ e he; simp at he
  | cons x t ih =>
    intro hnd e he
    rw [List.map_cons, List.nodup_cons] at hnd
    rcases List.mem_cons.mp he with h1 | h1
    · subst h1
      simp [List.find?_cons]
    · have hx : x.id ≠ e.id := by
        intro heq
        exact hnd.1 (heq ▸ List.mem_map_of_mem JournalEntry.id h1)
      rw [List.find?_cons]
      have : decide (x.id = e.id) = false := by simpa using hx
      rw [this]
      exact ih hnd.2 e h1

theorem applyEmbeddings_id (assoc : List (ℤ × Emb)) (e : JournalEntry) :
    (applyEmbeddings assoc e).id = e.id := by
  unfold applyEmbeddings
  cases assoc.lookup e.id <;> rfl

/-- C2: the whole-user batch job either commits every entry's new embedding
together, or (on any exception anywhere in the batch) rolls the entire batch
back: an error payload leaves the database unchanged, and a success payload
means every entry of the batch now has a stored embedding — there is never a
partially vectorized batch.  `hlen` is the §6 collaborator contract that the
batched encode returns one vector per input text. -/
theorem vectorize_all_atomic (m : EmbedModel) (commitOk : Bool)
    (db : List JournalEntry) (uid : ℤ)
    (hlen : ∀ ts vs, m.encodeBatch ts true = some vs → vs.length = ts.length) :
    ((vectorize_all_entries m commitOk db uid).result.status = "error" →
      (vectorize_all_entries m commitOk db uid).db = db) ∧
    ((vectorize_all_entries m commitOk db uid).result.status = "success" →
      ∀ e ∈ batchEntries db uid,
        ∃ e', e' ∈ (vectorize_all_entries m commitOk db uid).db ∧
          e'.id = e.id ∧ e'.embedding.isSome = true) := by
  by_cases hemp : batchEntries db uid = []
  · refine ⟨fun hst => ?_, fun _ e hee => ?_⟩
    · simp [vectorize_all_entries, hemp]
    · rw [hemp] at hee
      simp at hee
  · cases henc : m.encodeBatch ((batchEntries db uid).map fun e => e.content) true with
    | none =>
      refine ⟨fun _ => ?_, fun hst => ?_⟩
      · simp [vectorize_all_entries, hemp, henc]
      · simp [vectorize_all_entries, hemp, henc, VectorizeAllResult.status] at hst
    | some embs =>
      have hlen2 : (batchEntries db uid).length ≤ embs.length := by
        rw [hlen _ _ henc, List.length_map]
      cases commitOk with
      | false =>
        refine ⟨fun _ => ?_, fun hst => ?_⟩
        · simp [vectorize_all_entries, hemp, henc]
        · simp [vectorize_all_entries, hemp, henc, VectorizeAllResult.status] at hst
      | true =>
        refine ⟨fun hst => ?_, fun _ e hee => ?_⟩
        · simp [vectorize_all_entries, hemp, henc, VectorizeAllResult.status] at hst
        · have hdb : (vectorize_all_entries m true db uid).db =
              db.map (applyEmbeddings
                (((batchEntries db uid).zip embs).map fun p => (p.1.id, p.2))) := by
            simp [vectorize_all_entries, hemp, henc]
          have hedb : e ∈ db := (List.filter_sublist db).subset hee
          have hkeys : e.id ∈
              ((((batchEntries db uid).zip embs).map fun p => (p.1.id, p.2)).map Prod.fst) := by
            rw [List.map_map]
            have hfst : (((batchEntries db uid).zip embs).map fun p =>
                (Prod.fst ∘ fun p : JournalEntry × Emb => (p.1.id, p.2)) p) =
                (((batchEntries db uid).zip embs).map Prod.fst).map JournalEntry.id := by
              rw [List.map_map]
              rfl
            rw [hfst, List.map_fst_zip _ _ hlen2]
            exact List.mem_map_of_mem JournalEntry.id hee
          obtain ⟨v, hv⟩ := Option.isSome_iff_exists.mp
            (lookup_isSome_of_mem_keys _ e.id hkeys)
          refine ⟨applyEmbeddings
            (((batchEntries db uid).zip embs).map fun p => (p.1.id, p.2)) e, ?_, ?_, ?_⟩
          · rw [hdb]
            exact List.mem_map_of_mem _ hedb
          · exact applyEmbeddings_id _ e
          · unfold applyEmbeddings
            rw [hv]
            rfl

/-- Witness for the C2 atomicity theorem at a concrete database and a
length-preserving collaborator: the committed batch entry carries an
embedding. -/
theorem vectorize_all_atomic_witness :
    ∃ e', e' ∈ (vectorize_all_entries unitModel true [rawEntryA] 1).db ∧
      e'.id = rawEntryA.id ∧ e'.embedding.isSome = true :=
  (vectorize_all_atomic unitModel true [rawEntryA] 1 (by
    intro ts vs h
    obtain rfl : vs = ts.map fun _ => [1] := by simpa [unitModel] using h.symm
    simp)).2 rfl rawEntryA (by decide)

/-- C7: with a nonempty batch, the batched embedding call happens exactly
once, with the whole content list; assuming the collaborator returns one
vector per input text (the order-preserving §6 contract), the success payload
lists one result row per entry, row i carrying entry i's id and vector i's
dimension (the `zip` pairing of the entry batch with the returned vectors),
and the committed database stores vector i on entry i.  `hnodup` is the
primary-key invariant on the entry table. -/
theorem vectorize_all_order_preserving (m : EmbedModel)
    (db : List JournalEntry) (uid : ℤ) (embs : List Emb)
    (hne : batchEntries db uid ≠ [])
    (henc : m.encodeBatch ((batchEntries db uid).map fun e => e.content) true = some embs)
    (hlen : embs.length = (batchEntries db uid).length)
    (hnodup : (db.map JournalEntry.id).Nodup) :
    (vectorize_all_entries m true db uid).batchCalls =
      [(batchEntries db uid).map fun e => e.content] ∧
    (vectorize_all_entries m true db uid).result =
      .success uid (batchEntries db uid).length ((batchEntries db uid).zip embs).length
        (((batchEntries db uid).zip embs).map fun p =>
          { entry_id := p.1.id, token_count := (m.tokenize p.1.content).length,
            embedding_dimension := p.2.length, status := "success" }) ∧
    ((batchEntries db uid).zip embs).length = (batchEntries db uid).length ∧
    ∀ p ∈ (batchEntries db uid).zip embs,
      (vectorize_all_entries m true db uid).db.find?
        (fun x => decide (x.id = p.1.id)) = some { p.1 with embedding := some p.2 } := by
  have hlen2 : (batchEntries db uid).length ≤ embs.length := le_of_eq hlen.symm
  refine ⟨?_, ?_, ?_, ?_⟩
  · simp [vectorize_all_entries, hne, henc]
  · simp [vectorize_all_entries, hne, henc, List.length_map]
  · rw [List.length_zip, hlen]
    simp
  · intro p hp
    obtain ⟨a, b⟩ := p
    obtain ⟨ha, hb⟩ := List.of_mem_zip hp
    have hdb : (vectorize_all_entries m true db uid).db =
        db.map (applyEmbeddings
          (((batchEntries db uid).zip embs).map fun p => (p.1.id, p.2))) := by
      simp [vectorize_all_entries, hne, henc]
    have hfst : ((((batchEntries db uid).zip embs).map fun p =>
        (p.1.id, p.2)).map Prod.fst) = (batchEntries db uid).map JournalEntry.id := by
      rw [List.map_map]
      have : (Prod.fst ∘ fun p : JournalEntry × Emb => (p.1.id, p.2)) =
          (JournalEntry.id ∘ Prod.fst) := by
        funext q
        rfl
      rw [this, ← List.map_map, List.map_fst_zip _ _ hlen2]
    have hbatchnd : ((batchEntries db uid).map JournalEntry.id).Nodup :=
      List.Nodup.sublist ((List.filter_sublist db).map JournalEntry.id) hnodup
    have hassocnd : ((((batchEntries db uid).zip embs).map fun p =>
        (p.1.id, p.2)).map Prod.fst).Nodup := by
      rw [hfst]
      exact hbatchnd
    have hmem : (a.id, b) ∈ (((batchEntries db uid).zip embs).map fun p =>
        (p.1.id, p.2)) :=
      List.mem_map_of_mem (fun p : JournalEntry × Emb => (p.1.id, p.2)) hp
    have hlook := lookup_of_mem_nodup_keys _ hassocnd a.id b hmem
    rw [hdb, List.find?_map]
    have hpred : ((fun x : JournalEntry => decide (x.id = a.id)) ∘
        applyEmbeddings (((batchEntries db uid).zip embs).map fun p => (p.1.id, p.2))) =
        fun x : JournalEntry => decide (x.id = a.id) := by
      funext x
      simp [Function.comp, applyEmbeddings_id]
    rw [hpred, find?_mem_nodup db hnodup a ((List.filter_sublist db).subset ha)]
    have : applyEmbeddings (((batchEntries db uid).zip embs).map fun p =>
        (p.1.id, p.2)) a = { a with embedding := some b } := by
      unfold applyEmbeddings
      rw [hlook]
    simp [this]

/-- Witness for the C7 theorem at a concrete two-entry batch. -/
theorem vectorize_all_order_preserving_witness :
    (vectorize_all_entries unitModel true [rawEntryA, rawEntryB] 1).batchCalls =
      [(batchEntries [rawEntryA, rawEntryB] 1).map fun e => e.content] :=
  (vectorize_all_order_preserving unitModel [rawEntryA, rawEntryB] 1 [[1], [1]]
    (by decide) rfl (by decide) (by decide)).1

/-- Row of `clustering_runs` (models.py `ClusteringRun`).  These are all of
its columns: the stored clustering parameters are `min_cluster_size`,
`min_samples` and `membership_threshold`; no column exists for the
cluster-selection epsilon or for any of the three projection (UMAP)
parameters. -/
structure ClusteringRun where
  id : ℤ
  user_id : ℤ
  run_timestamp : ℤ
  num_entries : ℤ
  num_clusters : ℤ
  min_cluster_size : ℤ
  min_samples : Option ℤ
  membership_threshold : ℚ
  noise_entries : ℤ
  start_date : Option ℤ
  end_date : Option ℤ
deriving DecidableEq

/-- The configuration bundle of one clustering run: spec §4.3, matching the
parameter list of tasks.py `run_clustering_task`. -/
structure ClusteringParams where
  min_cluster_size : ℤ
  min_samples : Option ℤ
  membership_threshold : ℚ
  cluster_selection_epsilon : ℚ
  umap_n_components : ℤ
  umap_n_neighbors : ℤ
  umap_min_dist : ℚ
deriving DecidableEq

/-- Modelled from the spec: the persistence step of
`hdbscan_clustering.run_clustering` (that module is not among the sources;
tasks.py only calls it).  Spec §4.3 step 5 persists one `ClusteringRun` row
"recording the inputs and derived counts", and the row shape is
authoritative from models.py, so only the parameter columns that exist there
can be recorded. -/
def persistClusteringRun (rid uid ts : ℤ) (p : ClusteringParams)
    (num_entries num_clusters noise_entries : ℤ)
    (sd ed : Option ℤ) : ClusteringRun :=
  { id := rid, user_id := uid, run_timestamp := ts,
    num_entries := num_entries, num_clusters := num_clusters,
    min_cluster_size := p.min_cluster_size, min_samples := p.min_samples,
    membership_threshold := p.membership_threshold,
    noise_entries := noise_entries, start_date := sd, end_date := ed }

/-- Concrete clustering parameter bundle. -/
def paramsA : ClusteringParams :=
  { min_cluster_size := 5, min_samples := none, membership_threshold := 0,
    cluster_selection_epsilon := 0, umap_n_components := 10,
    umap_n_neighbors := 15, umap_min_dist := 0 }

/-- Identical bundle except for the cluster-selection epsilon and all three
projection parameters. -/
def paramsB : ClusteringParams :=
  { paramsA with
    cluster_selection_epsilon := 1, umap_n_components := 2,
    umap_n_neighbors := 30, umap_min_dist := 1 }

/-- C4 counterexample: two runs whose parameter bundles differ in the
cluster-selection epsilon and in all three projection parameters persist to
identical `ClusteringRun` rows, because models.py declares no columns for
those four parameters — the record does not store all the clustering and
projection parameters used. -/
theorem clusteringrun_missing_params_cex :
    paramsA ≠ paramsB ∧
    persistClusteringRun 1 1 0 paramsA 12 2 2 none none =
      persistClusteringRun 1 1 0 paramsB 12 2 2 none none :=
  ⟨by decide, rfl⟩

/-- C4, amended: a persisted `ClusteringRun` row stores the minimum cluster
size, minimum samples and membership threshold used, alongside the
entry/cluster/noise counts and the optional date-range filter; it does not
store the cluster-selection epsilon or the projection parameters — any two
bundles agreeing on the three stored parameters persist identically. -/
theorem persistClusteringRun_stores (rid uid ts : ℤ) (p : ClusteringParams)
    (ne nc no : ℤ) (sd ed : Option ℤ) :
    (persistClusteringRun rid uid ts p ne nc no sd ed).min_cluster_size = p.min_cluster_size ∧
    (persistClusteringRun rid uid ts p ne nc no sd ed).min_samples = p.min_samples ∧
    (persistClusteringRun rid uid ts p ne nc no sd ed).membership_threshold = p.membership_threshold ∧
    (persistClusteringRun rid uid ts p ne nc no sd ed).num_entries = ne ∧
    (persistClusteringRun rid uid ts p ne nc no sd ed).num_clusters = nc ∧
    (persistClusteringRun rid uid ts p ne nc no sd ed).noise_entries = no ∧
    (persistClusteringRun rid uid ts p ne nc no sd ed).start_date = sd ∧
    (persistClusteringRun rid uid ts p ne nc no sd ed).end_date = ed ∧
    ∀ q : ClusteringParams, q.min_cluster_size = p.min_cluster_size →
      q.min_samples = p.min_samples →
      q.membership_threshold = p.membership_threshold →
      persistClusteringRun rid uid ts q ne nc no sd ed =
        persistClusteringRun rid uid ts p ne nc no sd ed := by
  refine ⟨rfl, rfl, rfl, rfl, rfl, rfl, rfl, rfl, ?_⟩
  intro q h1 h2 h3
  simp [persistClusteringRun, h1, h2, h3]

/-- Witness for the amended C4 theorem at concrete values. -/
theorem persistClusteringRun_stores_witness :
    persistClusteringRun 1 1 0 paramsB 12 2 2 none none =
      persistClusteringRun 1 1 0 paramsA 12 2 2 none none :=
  (persistClusteringRun_stores 1 1 0 paramsA 12 2 2 none none).2.2.2.2.2.2.2.2
    paramsB rfl rfl rfl

/-- Response schema of the run listing (schemas.py `ClusteringRunResponse`).
These are all of its declared fields: none exist for the date-range filter
or for the epsilon/projection parameters. -/
structure ClusteringRunResponse where
  id : ℤ
  run_timestamp : ℤ
  num_entries : ℤ
  num_clusters : ℤ
  min_cluster_size : ℤ
  min_samples : Option ℤ
  membership_threshold : ℚ
  noise_entries : ℤ
deriving DecidableEq

/-- Construction of one listing row (main.py `get_clustering_runs`).  The
endpoint also passes `start_date=...` and `end_date=...` to the pydantic
constructor, but the model declares no such fields and ignores unknown
constructor arguments, so they are dropped from the response. -/
def toClusteringRunResponse (r : ClusteringRun) : ClusteringRunResponse :=
  { id := r.id, run_timestamp := r.run_timestamp, num_entries := r.num_entries,
    num_clusters := r.num_clusters, min_cluster_size := r.min_cluster_size,
    min_samples := r.min_samples,
    membership_threshold := r.membership_threshold,
    noise_entries := r.noise_entries }

/-- Comparator of `ORDER BY run_timestamp DESC`: newer runs first. -/
def runDescTs (a b : ClusteringRun) : Bool :=
  decide (b.run_timestamp ≤ a.run_timestamp)

/-- main.py `get_clustering_runs` (`GET /clustering/runs`): the user's runs,
newest first, each mapped to the response schema. -/
def get_clustering_runs (runs : List ClusteringRun) (uid : ℤ) :
    List ClusteringRunResponse :=
  (((runs.filter fun r => decide (r.user_id = uid)).mergeSort runDescTs).map
    toClusteringRunResponse)

theorem runDescTs_trans (a b c : ClusteringRun) (h1 : runDescTs a b = true)
    (h2 : runDescTs b c = true) : runDescTs a c = true := by
  simp only [runDescTs, decide_eq_true_eq] at *
  exact le_trans h2 h1

theorem runDescTs_total (a b : ClusteringRun) :
    (runDescTs a b || runDescTs b a) = true := by
  simp only [runDescTs, Bool.or_eq_true, decide_eq_true_eq]
  exact le_total b.run_timestamp a.run_timestamp

/-- Concrete clustering run carrying a date-range filter. -/
def runWithDates : ClusteringRun :=
  { id := 1, user_id := 1, run_timestamp := 100, num_entries := 12,
    num_clusters := 2, min_cluster_size := 5, min_samples := none,
    membership_threshold := 0, noise_entries := 2,
    start_date := some 10, end_date := some 20 }

/-- The same run with no date-range filter. -/
def runNoDates : ClusteringRun :=
  { runWithDates with start_date := none, end_date := none }

/-- C6 counterexample: two stored runs that differ only in their date-range
filter are listed identically, because the pydantic response schema has no
start/end-date fields (the endpoint passes them, pydantic drops them) — the
returned run does not include the date-range filter when one was applied. -/
theorem get_clustering_runs_dates_cex :
    runWithDates ≠ runNoDates ∧
    get_clustering_runs [runWithDates] 1 = get_clustering_runs [runNoDates] 1 := by
  refine ⟨by decide, ?_⟩
  simp [get_clustering_runs, runWithDates, runNoDates, List.mergeSort,
    toClusteringRunResponse]

/-- C6, amended: the run listing returns the user's runs newest first by run
timestamp, each row carrying the run's timestamp, its stored parameters
(minimum cluster size, minimum samples, membership threshold) and its
entry/cluster/noise counts; the response declares no date-range fields, so
runs differing only in their date-range filter are listed identically, and
the epsilon/projection parameters are likewise absent. -/
theorem get_clustering_runs_newest_first (runs : List ClusteringRun) (uid : ℤ) :
    (get_clustering_runs runs uid).Pairwise
      (fun a b => b.run_timestamp ≤ a.run_timestamp) ∧
    (∀ resp ∈ get_clustering_runs runs uid, ∃ r ∈ runs, r.user_id = uid ∧
      resp = toClusteringRunResponse r) ∧
    (∀ r : ClusteringRun, ∀ sd ed : Option ℤ,
      toClusteringRunResponse { r with start_date := sd, end_date := ed } =
        toClusteringRunResponse r) := by
  refine ⟨?_, ?_, ?_⟩
  · have hsorted := List.sorted_mergeSort runDescTs_trans runDescTs_total
      (runs.filter fun r => decide (r.user_id = uid))
    rw [get_clustering_runs, List.pairwise_map]
    refine hsorted.imp ?_
    intro a b hab
    simpa [runDescTs, toClusteringRunResponse] using hab
  · intro resp hresp
    obtain ⟨r, hr, hrr⟩ := List.mem_map.mp hresp
    have hrs := (List.mergeSort_perm _ runDescTs).subset hr
    have hrf := List.mem_filter.mp hrs
    exact ⟨r, hrf.1, of_decide_eq_true hrf.2, hrr.symm⟩
  · intro r sd ed
    rfl

/-- Witness for the amended C6 theorem at a concrete run. -/
theorem get_clustering_runs_newest_first_witness :
    toClusteringRunResponse { runWithDates with start_date := none, end_date := none } =
      toClusteringRunResponse runWithDates :=
  (get_clustering_runs_newest_first [runWithDates] 1).2.2 runWithDates none none

/-- Celery task states reachable for the queued jobs (the default
`celery.states` progression); the spec maps SUCCESS to "succeeded" and
FAILURE to "failed". -/
inductive CeleryState where
  | pending
  | started
  | retry
  | success
  | failure
deriving DecidableEq

/-- The raw state string exposed by `task_result.state` and returned in the
response's `status` field. -/
def CeleryState.str : CeleryState → String
  | .pending => "PENDING"
  | .started => "STARTED"
  | .retry => "RETRY"
  | .success => "SUCCESS"
  | .failure => "FAILURE"

/-- Celery `AsyncResult.ready()`: the task reached a terminal state. -/
def CeleryState.ready : CeleryState → Bool
  | .success => true
  | .failure => true
  | _ => false

/-- Celery `AsyncResult.successful()`. -/
def CeleryState.successful : CeleryState → Bool
  | .success => true
  | _ => false

/-- View of a Celery `AsyncResult`: the task state, the payload the task
returned (meaningful once it succeeded; serialized here as an opaque string)
and `str(task_result.info)`, the exception text once it failed. -/
structure AsyncResultView where
  state : CeleryState
  taskResult : String
  info : String
deriving DecidableEq

/-- The `result` field of the status response: either the task's own payload
or one of the endpoint's inline informational message dicts. -/
inductive ResultField where
  | value (v : String)
  | message (s : String)
deriving DecidableEq

/-- Response schema of `GET /tasks/{task_id}`
(schemas.py `TaskStatusResponse`). -/
structure TaskStatusResponse where
  task_id : String
  status : String
  result : Option ResultField
  error : Option String
deriving DecidableEq

/-- main.py `get_task_status`: the response carries the raw Celery state; a
ready, successful task gets its payload in `result`; a ready, failed task
gets the exception text in `error`; a PENDING or STARTED task gets an inline
informational message in `result`; any other non-terminal state leaves both
fields null. -/
def get_task_status (task_id : String) (t : AsyncResultView) : TaskStatusResponse :=
  let response : TaskStatusResponse :=
    { task_id := task_id, status := t.state.str, result := none, error := none }
  if t.state.ready then
    if t.state.successful then
      { response with result := some (.value t.taskResult) }
    else
      { response with error := some t.info }
  else if t.state = .pending then
    { response with result := some (.message "Task is waiting to be processed") }
  else if t.state = .started then
    { response with result := some (.message "Task is being processed") }
  else response

/-- C5 counterexample: for a pending job the endpoint fills `result` with an
informational message, so a pending job carries a result without having
succeeded — refuting both "result present iff succeeded" and "a pending or
started job has neither a result nor an error". -/
theorem get_task_status_pending_cex :
    (get_task_status "t1" { state := .pending, taskResult := "", info := "" }).status =
      "PENDING" ∧
    (get_task_status "t1" { state := .pending, taskResult := "", info := "" }).result ≠
      none := by
  refine ⟨rfl, ?_⟩
  simp [get_task_status, CeleryState.ready]

/-- C5, amended: the job-status endpoint returns the raw Celery state string
(PENDING, STARTED, RETRY, SUCCESS or FAILURE); the result field is present
iff the job succeeded or is still pending/started — for the latter two it
holds only an informational message — and the error field is present iff the
job failed; a succeeded job carries its payload in `result` and a failed one
its exception text in `error`. -/
theorem get_task_status_fields (tid : String) (t : AsyncResultView) :
    (get_task_status tid t).status = t.state.str ∧
    ((get_task_status tid t).result.isSome = true ↔
      (t.state = .success ∨ t.state = .pending ∨ t.state = .started)) ∧
    ((get_task_status tid t).error.isSome = true ↔ t.state = .failure) ∧
    (t.state = .success →
      (get_task_status tid t).result = some (.value t.taskResult)) ∧
    (t.state = .failure → (get_task_status tid t).error = some t.info) := by
  obtain ⟨st, res, inf⟩ := t
  cases st <;>
    simp [get_task_status, CeleryState.ready, CeleryState.successful, CeleryState.str]

/-- Witness for the amended C5 theorem at a concrete succeeded task. -/
theorem get_task_status_fields_witness :
    (get_task_status "t2" { state := .success, taskResult := "done", info := "" }).result =
      some (.value "done") :=
  (get_task_status_fields "t2" { state := .success, taskResult := "done", info := "" }).2.2.2.1
    rfl

/-- Row of `clusters` (models.py `Cluster`): `cluster_id` is the algorithm's
run-local native index, distinct from the surrogate key `id`. -/
structure Cluster where
  id : ℤ
  run_id : ℤ
  cluster_id : ℤ
  size : ℤ
  persistence : Option ℚ
  centroid_entry_id : Option ℤ
  topic_label : Option String
deriving DecidableEq

/-- Row of `entry_cluster_assignments` (models.py `EntryClusterAssignment`). -/
structure EntryClusterAssignment where
  id : ℤ
  run_id : ℤ
  entry_id : ℤ
  cluster_id : ℤ
  membership_probability : ℚ
  is_primary : Bool
deriving DecidableEq

/-- The tables read by the visualization endpoint. -/
structure Database where
  entries : List JournalEntry
  runs : List ClusteringRun
  clusters : List Cluster
  assignments : List EntryClusterAssignment
deriving DecidableEq

/-- One display point of the visualization response
(schemas.py `ClusterPoint`). -/
structure ClusterPoint where
  entry_id : ℤ
  title : Option Text
  x : ℚ
  y : ℚ
  cluster_id : ℤ
  cluster_name : String
  membership_probability : ℚ
deriving DecidableEq

/-- Cluster metadata row of the visualization response
(schemas.py `ClusterInfoResponse`). -/
structure ClusterInfoResponse where
  cluster_id : ℤ
  size : ℤ
  persistence : Option ℚ
  topic_label : Option String
deriving DecidableEq

/-- Visualization response (schemas.py `ClusterVisualizationResponse`). -/
structure ClusterVisualizationResponse where
  run_id : ℤ
  points : List ClusterPoint
  clusters : List ClusterInfoResponse
deriving DecidableEq

/-- Parameters handed to the `umap.UMAP(...)` constructor. -/
structure UmapParams where
  n_components : ℕ
  n_neighbors : ℕ
  min_dist : ℚ
  metric : String
  random_state : Option ℕ
deriving DecidableEq

/-- The external UMAP collaborator: fitting with a pinned `random_state` is a
pure function of the parameters and the data, while an unseeded fit
additionally depends on ambient entropy (the process's random source). -/
structure UmapLib where
  fitSeeded : UmapParams → List Emb → List (ℚ × ℚ)
  fitUnseeded : ℕ → UmapParams → List Emb → List (ℚ × ℚ)

/-- One `reducer.fit_transform(...)` call: seeded parameters make the result
independent of the ambient entropy. -/
def umapFitTransform (lib : UmapLib) (entropy : ℕ) (p : UmapParams)
    (xs : List Emb) : List (ℚ × ℚ) :=
  match p.random_state with
  | some _ => lib.fitSeeded p xs
  | none => lib.fitUnseeded entropy p xs

/-- Python dict assignment `d[k] = v` on an association list: the new binding
shadows any previous one (the endpoint only performs lookups on its dicts, so
binding order is irrelevant). -/
def dictInsert {β : Type _} (acc : List (ℤ × β)) (k : ℤ) (v : β) : List (ℤ × β) :=
  (k, v) :: acc.filter fun p => !(p.1 == k)

/-- The `entry_to_cluster` dict of main.py `get_cluster_visualization`: a left
fold over the run's assignment rows, a row being entered when it is primary
or when its entry has no binding yet; the value is the pair (cluster index,
membership probability). -/
def buildEntryToCluster (rows : List EntryClusterAssignment) : List (ℤ × (ℤ × ℚ)) :=
  rows.foldl (fun acc a =>
    if a.is_primary || (acc.lookup a.entry_id).isNone then
      dictInsert acc a.entry_id (a.cluster_id, a.membership_probability)
    else acc) []

/-- The fixed display-projection parameters of main.py
`get_cluster_visualization`: `umap.UMAP(n_components=2, n_neighbors=15,
min_dist=0.1, metric='euclidean', random_state=42)` — constants on every
call. -/
def vizUmapParams : UmapParams :=
  { n_components := 2, n_neighbors := 15, min_dist := 1/10,
    metric := "euclidean", random_state := some 42 }

/-- main.py `get_cluster_visualization`
(`GET /clustering/runs/{run_id}/visualization`): look up the run (404 when
absent), fetch the user's embedded entries sorted by creation time (400 when
none), build the per-entry primary assignment dict and the cluster-name dict,
keep the entries assigned in this run (400 when none), project their stored
embeddings to 2-D with a freshly constructed, constantly-parameterised UMAP
reducer, and emit one point per entry joined with the run's cluster
metadata. -/
def get_cluster_visualization (lib : UmapLib) (entropy : ℕ) (db : Database)
    (uid run_id : ℤ) : Except String ClusterVisualizationResponse :=
  match db.runs.find? fun r => decide (r.id = run_id ∧ r.user_id = uid) with
  | none => .error "Clustering run not found"
  | some _run =>
    let entries := ((db.entries.filter fun e =>
        decide (e.user_id = some uid ∧ e.embedding ≠ none)).mergeSort
      fun a b => decide (a.created_at ≤ b.created_at))
    if entries = [] then .error "No entries with embeddings found"
    else
      let entry_to_cluster := buildEntryToCluster
        (db.assignments.filter fun a => decide (a.run_id = run_id))
      let clusters := db.clusters.filter fun c => decide (c.run_id = run_id)
      let cluster_info_map : List (ℤ × (String × ℤ × Option ℚ × Option String)) :=
        clusters.foldl (fun acc c =>
          dictInsert acc c.cluster_id
            (c.topic_label.getD ("Cluster " ++ toString c.cluster_id),
              c.size, c.persistence, c.topic_label)) []
      let entries_with_assignments := entries.filter fun e =>
        (entry_to_cluster.lookup e.id).isSome
      if entries_with_assignments = [] then
        .error "No entries found for this clustering run"
      else
        let embeddings := entries_with_assignments.map entryEmb
        let embedding_2d := umapFitTransform lib entropy vizUmapParams embeddings
        let points := (entries_with_assignments.zip embedding_2d).map fun q =>
          let a := (entry_to_cluster.lookup q.1.id).getD (0, 0)
          let cluster_name :=
            if a.1 = -1 then "Noise"
            else ((cluster_info_map.lookup a.1).map fun m => m.1).getD
              ("Cluster " ++ toString a.1)
          { entry_id := q.1.id, title := q.1.title, x := q.2.1, y := q.2.2,
            cluster_id := a.1, cluster_name := cluster_name,
            membership_probability := a.2 : ClusterPoint }
        let clusters_list : List ClusterInfoResponse := clusters.map fun c =>
          { cluster_id := c.cluster_id, size := c.size,
            persistence := c.persistence, topic_label := c.topic_label }
        .ok { run_id := run_id, points := points, clusters := clusters_list }

/-- C10: the visualization endpoint is deterministic: the display projection
is constructed with the fixed constant parameter bundle — seed
`random_state=42` included — on every call, so the entropy-dependent unseeded
branch of the UMAP collaborator is never taken, and two invocations over
identical stored entries, embeddings, assignments and cluster rows return
identical responses, identical 2-D point coordinates included, whatever the
ambient entropy of each call. -/
theorem get_cluster_visualization_deterministic (lib : UmapLib)
    (entropy1 entropy2 : ℕ) (db : Database) (uid run_id : ℤ) :
    get_cluster_visualization lib entropy1 db uid run_id =
      get_cluster_visualization lib entropy2 db uid run_id ∧
    vizUmapParams.random_state = some 42 := by
  refine ⟨?_, rfl⟩
  simp [get_cluster_visualization, umapFitTransform, vizUmapParams]

/-- UMAP collaborator whose unseeded branch visibly depends on entropy. -/
def cexUmapLib : UmapLib :=
  { fitSeeded := fun _ xs => xs.map fun _ => (0, 0),
    fitUnseeded := fun n _ xs => xs.map fun _ => ((n : ℚ), 0) }

/-- Empty database for the C10 witness. -/
def emptyDatabase : Database :=
  { entries := [], runs := [], clusters := [], assignments := [] }

/-- Witness for the C10 theorem: two calls under different ambient entropy
agree on a concrete database and collaborator. -/
theorem get_cluster_visualization_deterministic_witness :
    get_cluster_visualization cexUmapLib 0 emptyDatabase 1 1 =
      get_cluster_visualization cexUmapLib 7 emptyDatabase 1 1 :=
  (get_cluster_visualization_deterministic cexUmapLib 0 7 emptyDatabase 1 1).1

end ReflectAI
